import Mathlib

/-!
Shallow embedding of `animal_helpers.py` (repository `animal_recognition`)
together with proofs about its specified behaviour.

Modelling conventions:
* a pandas `DataFrame` of rows is an ordered `List` of a structure type;
* machine floats that the code only carries around unmodified (box
  coordinates, confidences) are modelled as `ℚ`;
* a Python function that can return `None` returns an `Option`;
* the file system and the detection model are explicit parameters
  (`Env`, `World`, `FSNode`), since the Python code reaches them only
  through `cv2`, `os`, `pathlib` and the model object.
-/

namespace AnimalHelpers

/-- Python exceptions raised by the embedded fragments.
`range(a, b, 0)` raises `ValueError`. -/
inductive PyError where
  | valueError
deriving DecidableEq

/-- The loop of `create_batches` (`animal_helpers.py` lines 79-81):
`for i in range(0, len(data), batch_size): yield data.iloc[i:i + batch_size]`
for a positive step `B`.  `range` keeps yielding `i` while `i < len(data)`,
stepping by `B`, and the slice `data.iloc[i:i+B]` is `(data.drop i).take B`. -/
def create_batches_go {α : Type} (data : List α) (B : Nat) (i : Nat) : List (List α) :=
  if 0 < B ∧ i < data.length then
    ((data.drop i).take B) :: create_batches_go data B (i + B)
  else
    []
termination_by data.length - i
decreasing_by
  rename_i h
  omega

/-- `create_batches(data, batch_size)` (`animal_helpers.py` lines 79-81), with
the generator fully evaluated.  The function performs no validation of
`batch_size`: `range(0, len(data), 0)` raises `ValueError` (when the generator
is iterated), and a negative step yields no indices at all because
`len(data) ≥ 0`, so the generator is simply empty. -/
def create_batches {α : Type} (data : List α) (batch_size : Int) :
    Except PyError (List (List α)) :=
  if batch_size = 0 then Except.error PyError.valueError
  else if 0 < batch_size then Except.ok (create_batches_go data batch_size.toNat 0)
  else Except.ok []

lemma create_batches_go_stop {α : Type} (data : List α) (B i : Nat)
    (h : ¬ (0 < B ∧ i < data.length)) : create_batches_go data B i = [] := by
  rw [create_batches_go, if_neg h]

lemma create_batches_go_step {α : Type} (data : List α) (B i : Nat)
    (h : 0 < B ∧ i < data.length) :
    create_batches_go data B i =
      ((data.drop i).take B) :: create_batches_go data B (i + B) := by
  rw [create_batches_go, if_pos h]

lemma create_batches_go_ne_nil_iff {α : Type} (data : List α) (B i : Nat) :
    create_batches_go data B i ≠ [] ↔ (0 < B ∧ i < data.length) := by
  by_cases h : 0 < B ∧ i < data.length
  · rw [create_batches_go_step data B i h]
    simp [h]
  · rw [create_batches_go_stop data B i h]
    simp [h]

lemma create_batches_go_join_aux {α : Type} (B : Nat) (hB : 0 < B) (data : List α) :
    ∀ n i, data.length - i ≤ n → (create_batches_go data B i).flatten = data.drop i := by
  intro n
  induction n with
  | zero =>
      intro i hi
      rw [create_batches_go_stop data B i (by omega)]
      have hlen : data.length ≤ i := by omega
      simp [List.drop_eq_nil_of_le hlen]
  | succ n ih =>
      intro i hi
      by_cases h : i < data.length
      · rw [create_batches_go_step data B i ⟨hB, h⟩]
        simp only [List.flatten_cons]
        rw [ih (i + B) (by omega)]
        have hdd : (data.drop i).drop B = data.drop (i + B) := by
          rw [List.drop_drop, Nat.add_comm]
        rw [← hdd]
        exact List.take_append_drop B (data.drop i)
      · rw [create_batches_go_stop data B i (by omega)]
        have hlen : data.length ≤ i := by omega
        simp [List.drop_eq_nil_of_le hlen]

lemma create_batches_go_length_aux {α : Type} (B : Nat) (hB : 0 < B) (data : List α) :
    ∀ n i, data.length - i ≤ n →
      (create_batches_go data B i).length = (data.length - i + B - 1) / B := by
  intro n
  induction n with
  | zero =>
      intro i hi
      rw [create_batches_go_stop data B i (by omega)]
      have h0 : data.length - i = 0 := by omega
      rw [h0]
      simp only [List.length_nil, Nat.zero_add]
      exact (Nat.div_eq_of_lt (by omega)).symm
  | succ n ih =>
      intro i hi
      by_cases h : i < data.length
      · rw [create_batches_go_step data B i ⟨hB, h⟩]
        simp only [List.length_cons]
        rw [ih (i + B) (by omega)]
        have hm : 0 < data.length - i := by omega
        have h1 : data.length - (i + B) = data.length - i - B := by omega
        rw [h1]
        rcases Nat.lt_or_ge (data.length - i) B with hlt | hge
        · have e1 : data.length - i - B = 0 := by omega
          have e2 : data.length - i + B - 1 = (data.length - i - 1) + B := by omega
          rw [e1, e2, Nat.add_div_right _ hB,
            Nat.div_eq_of_lt (show 0 + B - 1 < B by omega),
            Nat.div_eq_of_lt (show data.length - i - 1 < B by omega)]
        · have e1 : data.length - i - B + B - 1 = data.length - i - 1 := by omega
          have e2 : data.length - i + B - 1 = (data.length - i - 1) + B := by omega
          rw [e1, e2, Nat.add_div_right _ hB]
      · rw [create_batches_go_stop data B i (by omega)]
        have h0 : data.length - i = 0 := by omega
        rw [h0]
        simp only [List.length_nil, Nat.zero_add]
        exact (Nat.div_eq_of_lt (by omega)).symm

lemma create_batches_go_le_aux {α : Type} (B : Nat) (data : List α) :
    ∀ n i, data.length - i ≤ n → ∀ l ∈ create_batches_go data B i, l.length ≤ B := by
  intro n
  induction n with
  | zero =>
      intro i hi l hl
      rw [create_batches_go_stop data B i (by omega)] at hl
      simp at hl
  | succ n ih =>
      intro i hi l hl
      by_cases h : 0 < B ∧ i < data.length
      · rw [create_batches_go_step data B i h] at hl
        rcases List.mem_cons.mp hl with h1 | h2
        · subst h1
          simp only [List.length_take]
          exact min_le_left _ _
        · exact ih (i + B) (by omega) l h2
      · rw [create_batches_go_stop data B i h] at hl
        simp at hl

lemma create_batches_go_dropLast_aux {α : Type} (B : Nat) (hB : 0 < B) (data : List α) :
    ∀ n i, data.length - i ≤ n →
      ∀ l ∈ (create_batches_go data B i).dropLast, l.length = B := by
  intro n
  induction n with
  | zero =>
      intro i hi l hl
      rw [create_batches_go_stop data B i (by omega)] at hl
      simp at hl
  | succ n ih =>
      intro i hi l hl
      by_cases h : i < data.length
      · rw [create_batches_go_step data B i ⟨hB, h⟩] at hl
        by_cases hr : create_batches_go data B (i + B) = []
        · rw [hr] at hl
          simp at hl
        · rw [List.dropLast_cons_of_ne_nil hr] at hl
          rcases List.mem_cons.mp hl with h1 | h2
          · subst h1
            have hcond := (create_batches_go_ne_nil_iff data B (i + B)).mp hr
            simp only [List.length_take, List.length_drop]
            omega
          · exact ih (i + B) (by omega) l h2
      · rw [create_batches_go_stop data B i (by omega)] at hl
        simp at hl

/-- C1: for every manifest `data` of `N` rows and every batch size `B > 0`,
`create_batches` succeeds and yields exactly `⌈N/B⌉` batches whose
concatenation is the original manifest (so each batch is a contiguous slice,
row order is preserved within and across batches, and the total row count is
`N`), every batch but the last has exactly `B` rows, and no batch exceeds
`B` rows. -/
theorem create_batches_correct {α : Type} (data : List α) (B : Nat) (hB : 0 < B) :
    ∃ bs : List (List α), create_batches data (B : Int) = Except.ok bs ∧
      bs.length = (data.length + B - 1) / B ∧
      bs.flatten = data ∧
      (∀ l ∈ bs.dropLast, l.length = B) ∧
      (∀ l ∈ bs, l.length ≤ B) := by
  have hBz : (B : Int) ≠ 0 := by exact_mod_cast hB.ne'
  have hBpos : (0 : Int) < (B : Int) := by exact_mod_cast hB
  have htoNat : ((B : Int)).toNat = B := Int.toNat_natCast B
  refine ⟨create_batches_go data B 0, ?_, ?_, ?_, ?_, ?_⟩
  · unfold create_batches
    rw [if_neg hBz, if_pos hBpos, htoNat]
  · have := create_batches_go_length_aux B hB data data.length 0 (by omega)
    simpa using this
  · have := create_batches_go_join_aux B hB data data.length 0 (by omega)
    simpa using this
  · exact create_batches_go_dropLast_aux B hB data data.length 0 (by omega)
  · exact create_batches_go_le_aux B data data.length 0 (by omega)

/-- Witness: C1 at a concrete 5-row manifest with batch size 2. -/
theorem create_batches_correct_witness :
    0 < 2 ∧
    ∃ bs : List (List Nat),
      create_batches [10, 20, 30, 40, 50] ((2 : Nat) : Int) = Except.ok bs ∧
      bs.length = (([10, 20, 30, 40, 50] : List Nat).length + 2 - 1) / 2 ∧
      bs.flatten = [10, 20, 30, 40, 50] ∧
      (∀ l ∈ bs.dropLast, l.length = 2) ∧
      (∀ l ∈ bs, l.length ≤ 2) :=
  ⟨by decide, create_batches_correct [10, 20, 30, 40, 50] 2 (by decide)⟩

/-- C6 counterexample: with `batch_size = -1` on a 3-row table,
`create_batches` does not fail at all — it succeeds and produces no batches
(the underlying `range(0, 3, -1)` is empty), so no `ConfigError` is raised. -/
theorem create_batches_negative_no_error :
    create_batches ([1, 2, 3] : List Nat) (-1) = Except.ok [] := rfl

/-- C6 amended: `create_batches` performs no validation of `batch_size`.
For `batch_size < 0` it succeeds and yields no batches; for `batch_size = 0`
iterating the generator raises `ValueError` (not a `ConfigError`, and not
surfaced before the generator is consumed). -/
theorem create_batches_nonpositive {α : Type} (data : List α) (batch_size : Int)
    (h : batch_size ≤ 0) :
    create_batches data batch_size =
      (if batch_size = 0 then Except.error PyError.valueError else Except.ok []) := by
  unfold create_batches
  by_cases h0 : batch_size = 0
  · simp [h0]
  · rw [if_neg h0, if_neg (by omega), if_neg h0]

/-- Witness: C6 (amended) at a concrete table with batch size `-2`. -/
theorem create_batches_nonpositive_witness :
    (-2 : Int) ≤ 0 ∧
    create_batches ([1, 2, 3] : List Nat) (-2) =
      (if (-2 : Int) = 0 then Except.error PyError.valueError else Except.ok []) :=
  ⟨by decide, create_batches_nonpositive [1, 2, 3] (-2) (by decide)⟩

/-- `os.path.join(a, b)`: if `b` is absolute it replaces `a`; otherwise the
two are joined with exactly one separator. -/
def os_path_join (a b : String) : String :=
  if b.data.head? = some '/' then b
  else if a = "" then b
  else if a.data.getLast? = some '/' then a ++ b
  else a ++ "/" ++ b

/-- One manifest row, as consumed by `process_batch` (`animal_helpers.py`
lines 46-49): columns `image_path_rel`, `class` and `type`. -/
structure Row where
  image_path_rel : String
  «class» : Int
  type : String
deriving DecidableEq

/-- One row of `model(image).pandas().xywhn[0]`: normalized box centre and
size, confidence, and the model-native class guess (`class`/`name` columns),
which `process_batch` overwrites. -/
structure ModelDet where
  xcenter : ℚ
  ycenter : ℚ
  width : ℚ
  height : ℚ
  confidence : ℚ
  «class» : Int
  name : String
deriving DecidableEq

/-- One output detection row of `process_batch`: the model row after the
`class`/`name` columns are overwritten from the manifest and a `file_name`
column is added (`animal_helpers.py` lines 67-69). -/
structure DetRow where
  xcenter : ℚ
  ycenter : ℚ
  width : ℚ
  height : ℚ
  confidence : ℚ
  «class» : Int
  name : String
  file_name : String
deriving DecidableEq

/-- The external collaborators `process_batch` calls: `cv2.imread` (which
returns `None` on any decode failure), `cv2.cvtColor(·, COLOR_BGR2RGB)`, and
the detection model composed with `.pandas().xywhn[0]`. -/
structure Env (Img : Type) where
  imread : String → Option Img
  cvtColor_BGR2RGB : Img → Img
  model : Img → List ModelDet

/-- `results['class'] = class_id; results['name'] = type_name;
results['file_name'] = file` (`animal_helpers.py` lines 67-69), applied to one
model output row. -/
def overrideDet (row : Row) (d : ModelDet) : DetRow :=
  { xcenter := d.xcenter, ycenter := d.ycenter, width := d.width,
    height := d.height, confidence := d.confidence,
    «class» := row.«class», name := row.type, file_name := row.image_path_rel }

/-- One iteration of the `for _, row in batch.iterrows()` loop of
`process_batch` (`animal_helpers.py` lines 46-70).  The accumulator is the
`batch_results` list together with the console lines printed so far. -/
def process_row {Img : Type} (image_folder : String) (env : Env Img)
    (acc : List (List DetRow) × List String) (row : Row) :
    List (List DetRow) × List String :=
  let file := row.image_path_rel
  let image_path := os_path_join image_folder file
  match env.imread image_path with
  | none => (acc.1, acc.2 ++ ["Failed to load image: " ++ image_path])
  | some image =>
    let image := env.cvtColor_BGR2RGB image
    let results := env.model image
    if results.isEmpty then acc
    else (acc.1 ++ [results.map (overrideDet row)], acc.2)

/-- `process_batch(batch, image_folder, model)` (`animal_helpers.py` lines
25-76).  The first component is the returned value: `None` when
`batch_results` stayed empty, otherwise `pd.concat(batch_results,
ignore_index=True)`, i.e. the concatenation of the per-row tables.  The
second component is every console line printed during the call. -/
def process_batch {Img : Type} (batch : List Row) (image_folder : String)
    (env : Env Img) : Option (List DetRow) × List String :=
  let r := batch.foldl (process_row image_folder env) ([], [])
  let logs := r.2 ++ ["batch complete returning batch"]
  if r.1.isEmpty then (none, logs)
  else (some r.1.flatten, logs)

/-- The per-row table `process_batch` appends to `batch_results` for one
manifest row, if any: `none` when the image fails to load or the model
returns zero detections. -/
def row_table {Img : Type} (image_folder : String) (env : Env Img) (row : Row) :
    Option (List DetRow) :=
  match env.imread (os_path_join image_folder row.image_path_rel) with
  | none => none
  | some image =>
    let results := env.model (env.cvtColor_BGR2RGB image)
    if results.isEmpty then none else some (results.map (overrideDet row))

/-- The console lines `process_batch` prints while handling one manifest
row. -/
def row_log {Img : Type} (image_folder : String) (env : Env Img) (row : Row) :
    List String :=
  match env.imread (os_path_join image_folder row.image_path_rel) with
  | none => ["Failed to load image: " ++ os_path_join image_folder row.image_path_rel]
  | some _ => []

lemma row_table_imread_none {Img : Type} (image_folder : String) (env : Env Img)
    (row : Row)
    (h : env.imread (os_path_join image_folder row.image_path_rel) = none) :
    row_table image_folder env row = none := by
  simp [row_table, h]

lemma row_table_imread_some {Img : Type} (image_folder : String) (env : Env Img)
    (row : Row) (img : Img)
    (h : env.imread (os_path_join image_folder row.image_path_rel) = some img) :
    row_table image_folder env row =
      (if env.model (env.cvtColor_BGR2RGB img) = [] then none
       else some ((env.model (env.cvtColor_BGR2RGB img)).map (overrideDet row))) := by
  by_cases hres : env.model (env.cvtColor_BGR2RGB img) = [] <;>
    simp [row_table, h, hres]

lemma row_log_imread_none {Img : Type} (image_folder : String) (env : Env Img)
    (row : Row)
    (h : env.imread (os_path_join image_folder row.image_path_rel) = none) :
    row_log image_folder env row =
      ["Failed to load image: " ++ os_path_join image_folder row.image_path_rel] := by
  simp [row_log, h]

lemma row_log_imread_some {Img : Type} (image_folder : String) (env : Env Img)
    (row : Row) (img : Img)
    (h : env.imread (os_path_join image_folder row.image_path_rel) = some img) :
    row_log image_folder env row = [] := by
  simp [row_log, h]

lemma process_row_eq {Img : Type} (image_folder : String) (env : Env Img)
    (acc : List (List DetRow) × List String) (row : Row) :
    process_row image_folder env acc row =
      (acc.1 ++ (row_table image_folder env row).toList,
       acc.2 ++ row_log image_folder env row) := by
  cases h : env.imread (os_path_join image_folder row.image_path_rel) with
  | none =>
      simp [process_row, row_table_imread_none image_folder env row h,
        row_log_imread_none image_folder env row h, h]
  | some image =>
      by_cases hres : env.model (env.cvtColor_BGR2RGB image) = [] <;>
        simp [process_row, row_table_imread_some image_folder env row image h,
          row_log_imread_some image_folder env row image h, h, hres]

lemma process_fold_eq {Img : Type} (image_folder : String) (env : Env Img) :
    ∀ (batch : List Row) (acc : List (List DetRow) × List String),
      batch.foldl (process_row image_folder env) acc =
        (acc.1 ++ (batch.filterMap (row_table image_folder env)),
         acc.2 ++ (batch.map (row_log image_folder env)).flatten) := by
  intro batch
  induction batch with
  | nil => intro acc; simp
  | cons r rest ih =>
      intro acc
      rw [List.foldl_cons, ih, process_row_eq]
      cases h : row_table image_folder env r with
      | none =>
          simp [List.filterMap_cons, h, List.append_assoc]
      | some t =>
          simp [List.filterMap_cons, h, List.append_assoc]

lemma process_batch_eq {Img : Type} (batch : List Row) (image_folder : String)
    (env : Env Img) :
    process_batch batch image_folder env =
      ((if (batch.filterMap (row_table image_folder env)).isEmpty then none
        else some (batch.filterMap (row_table image_folder env)).flatten),
       (batch.map (row_log image_folder env)).flatten ++
         ["batch complete returning batch"]) := by
  unfold process_batch
  rw [process_fold_eq]
  by_cases hc : (batch.filterMap (row_table image_folder env)).isEmpty <;>
    simp [hc]

/-- C2: every detection row that `process_batch` outputs carries the `class`,
`type` (as `name`) and `image_path_rel` (as `file_name`) of the manifest row
it came from, for every model `env` — in particular the model's own
class/name output never reaches the result. -/
theorem process_batch_label_override {Img : Type} (batch : List Row)
    (image_folder : String) (env : Env Img) (out : List DetRow) (d : DetRow)
    (hout : (process_batch batch image_folder env).fst = some out)
    (hd : d ∈ out) :
    ∃ r ∈ batch, d.«class» = r.«class» ∧ d.name = r.type ∧
      d.file_name = r.image_path_rel := by
  rw [process_batch_eq] at hout
  by_cases he : (batch.filterMap (row_table image_folder env)).isEmpty
  · rw [if_pos he] at hout
    exact absurd (show (none : Option (List DetRow)) = some out from hout) (by simp)
  · rw [if_neg he] at hout
    obtain rfl : (batch.filterMap (row_table image_folder env)).flatten = out :=
      Option.some_injective _ hout
    obtain ⟨t, ht, hdt⟩ := List.mem_flatten.mp hd
    obtain ⟨r, hr, hrt⟩ := List.mem_filterMap.mp ht
    refine ⟨r, hr, ?_⟩
    cases him : env.imread (os_path_join image_folder r.image_path_rel) with
    | none =>
        rw [row_table_imread_none image_folder env r him] at hrt
        exact absurd hrt (by simp)
    | some image =>
        rw [row_table_imread_some image_folder env r image him] at hrt
        by_cases hres : env.model (env.cvtColor_BGR2RGB image) = []
        · rw [if_pos hres] at hrt
          exact absurd hrt (by simp)
        · rw [if_neg hres] at hrt
          obtain rfl : (env.model (env.cvtColor_BGR2RGB image)).map (overrideDet r) = t :=
            Option.some_injective _ hrt
          obtain ⟨m, _, hm⟩ := List.mem_map.mp hdt
          subst hm
          exact ⟨rfl, rfl, rfl⟩

/-- A concrete one-image environment for the C2 witness: the model localizes
one box and guesses class `2`, name `"model-guess"`. -/
def envC2 : Env Unit :=
  { imread := fun _ => some (),
    cvtColor_BGR2RGB := fun i => i,
    model := fun _ =>
      [{ xcenter := 0, ycenter := 0, width := 1, height := 1,
         confidence := 1, «class» := 2, name := "model-guess" }] }

/-- The manifest row of the spec's label-override example. -/
def rowC2 : Row := { image_path_rel := "x.jpg", «class» := 7, type := "lion" }

/-- The detection row `process_batch` outputs in the C2 witness scenario. -/
def detC2 : DetRow :=
  { xcenter := 0, ycenter := 0, width := 1, height := 1, confidence := 1,
    «class» := 7, name := "lion", file_name := "x.jpg" }

/-- Witness: C2 at the spec's example — manifest row
`{image_path_rel: "x.jpg", class: 7, type: "lion"}`, model-native class 2. -/
theorem process_batch_label_override_witness :
    (process_batch [rowC2] "imgs" envC2).fst = some [detC2] ∧ detC2 ∈ [detC2] ∧
    ∃ r ∈ [rowC2], detC2.«class» = r.«class» ∧ detC2.name = r.type ∧
      detC2.file_name = r.image_path_rel :=
  ⟨by decide, by decide,
    process_batch_label_override [rowC2] "imgs" envC2 [detC2] detC2
      (by decide) (by decide)⟩

/-- C3: if the image for one manifest row fails to load (`cv2.imread`
returns `None`), `process_batch` prints a diagnostic naming that image path,
skips only that row, and continues: the returned Batch Result is exactly the
one produced from the remaining rows, so one row's failure never aborts the
batch. -/
theorem process_batch_row_failure_isolated {Img : Type} (pre post : List Row)
    (r : Row) (image_folder : String) (env : Env Img)
    (hfail : env.imread (os_path_join image_folder r.image_path_rel) = none) :
    (process_batch (pre ++ r :: post) image_folder env).fst =
      (process_batch (pre ++ post) image_folder env).fst ∧
    ("Failed to load image: " ++ os_path_join image_folder r.image_path_rel) ∈
      (process_batch (pre ++ r :: post) image_folder env).snd := by
  have htab : row_table image_folder env r = none :=
    row_table_imread_none image_folder env r hfail
  have hlog : row_log image_folder env r =
      ["Failed to load image: " ++ os_path_join image_folder r.image_path_rel] :=
    row_log_imread_none image_folder env r hfail
  constructor
  · rw [process_batch_eq, process_batch_eq]
    simp [List.filterMap_append, List.filterMap_cons, htab]
  · rw [process_batch_eq]
    simp only [List.map_append, List.map_cons, List.flatten_append,
      List.flatten_cons, hlog]
    simp

/-- A concrete environment for the C3 witness: the file `imgs/missing.jpg`
fails to load, every other image loads and yields one detection. -/
def envC3 : Env Unit :=
  { imread := fun p => if p = "imgs/missing.jpg" then none else some (),
    cvtColor_BGR2RGB := fun i => i,
    model := fun _ =>
      [{ xcenter := 0, ycenter := 0, width := 1, height := 1,
         confidence := 1, «class» := 0, name := "animal" }] }

/-- Witness: C3 with a three-row batch whose middle row's image is absent. -/
theorem process_batch_row_failure_isolated_witness :
    envC3.imread (os_path_join "imgs" "missing.jpg") = none ∧
    ((process_batch [⟨"a.jpg", 1, "cat"⟩, ⟨"missing.jpg", 2, "dog"⟩,
        ⟨"b.jpg", 3, "fox"⟩] "imgs" envC3).fst =
      (process_batch [⟨"a.jpg", 1, "cat"⟩, ⟨"b.jpg", 3, "fox"⟩] "imgs" envC3).fst ∧
    ("Failed to load image: " ++ os_path_join "imgs" "missing.jpg") ∈
      (process_batch [⟨"a.jpg", 1, "cat"⟩, ⟨"missing.jpg", 2, "dog"⟩,
        ⟨"b.jpg", 3, "fox"⟩] "imgs" envC3).snd) :=
  ⟨by decide,
    process_batch_row_failure_isolated [⟨"a.jpg", 1, "cat"⟩]
      [⟨"b.jpg", 3, "fox"⟩] ⟨"missing.jpg", 2, "dog"⟩ "imgs" envC3 (by decide)⟩

/-- C4: if every row of the batch either fails to load or gets zero model
detections, `process_batch` returns the explicit empty marker `None`, not an
empty table.  In particular an image that decodes successfully but receives
zero boxes contributes no rows, and alone in a batch it yields `None`. -/
theorem process_batch_empty_marker {Img : Type} (batch : List Row)
    (image_folder : String) (env : Env Img)
    (h : ∀ r ∈ batch, ∀ img,
      env.imread (os_path_join image_folder r.image_path_rel) = some img →
        env.model (env.cvtColor_BGR2RGB img) = []) :
    (process_batch batch image_folder env).fst = none := by
  have htab : ∀ r ∈ batch, row_table image_folder env r = none := by
    intro r hr
    cases him : env.imread (os_path_join image_folder r.image_path_rel) with
    | none => exact row_table_imread_none image_folder env r him
    | some image =>
        rw [row_table_imread_some image_folder env r image him,
          if_pos (h r hr image him)]
  rw [process_batch_eq]
  have hnil : batch.filterMap (row_table image_folder env) = [] :=
    List.filterMap_eq_nil_iff.mpr htab
  simp [hnil]

/-- A concrete environment for the C4 witness: every image decodes
successfully and the model returns zero boxes for all of them. -/
def envC4 : Env Unit :=
  { imread := fun _ => some (),
    cvtColor_BGR2RGB := fun i => i,
    model := fun _ => [] }

/-- Witness: C4 with a single-row batch whose image decodes successfully but
gets zero boxes — the Batch Result is the empty marker `None`. -/
theorem process_batch_empty_marker_witness :
    (process_batch [⟨"a.jpg", 1, "cat"⟩] "imgs" envC4).fst = none :=
  process_batch_empty_marker [⟨"a.jpg", 1, "cat"⟩] "imgs" envC4
    (fun _ _ _ _ => rfl)

/-- The character-level loop behind `os.path.basename`: everything after the
last `/` (so a path ending in `/` has basename `""`, as in Python). -/
def basename_go : List Char → List Char → List Char
  | [], acc => acc.reverse
  | c :: cs, acc => if c = '/' then basename_go cs [] else basename_go cs (c :: acc)

/-- `os.path.basename(p)`. -/
def os_path_basename (p : String) : String := String.mk (basename_go p.data [])

/-- `os.path.abspath(p)` relative to the process working directory `cwd`:
`normpath(join(cwd, p))`, which is `p` itself when `p` is already absolute.
(Path normalization beyond the join is not modelled; paths in the claims are
used verbatim.) -/
def os_path_abspath (cwd p : String) : String := os_path_join cwd p

/-- A destination-directory entry: a regular file or a symbolic link with its
target path. -/
inductive Entry where
  | file
  | symlink (target : String)
deriving DecidableEq

/-- The file-system state `populate_with_symlinks` interacts with:
existence of (source-side) paths, the destination directory's entries keyed
by base name, and whether the destination directory itself exists. -/
structure World where
  src_exists : String → Bool
  dest : String → Option Entry
  dest_dir_exists : Bool

/-- `os.path.exists(destination_file)` for the destination entry named `n`:
true for a regular file, and for a symlink only when its target exists
(a broken link does not "exist"). -/
def dest_path_exists (w : World) (n : String) : Bool :=
  match w.dest n with
  | none => false
  | some Entry.file => true
  | some (Entry.symlink t) => w.src_exists t

/-- `os.path.islink(destination_file)` for the destination entry named `n`:
true for any symlink, broken or not. -/
def dest_path_islink (w : World) (n : String) : Bool :=
  match w.dest n with
  | none => false
  | some Entry.file => false
  | some (Entry.symlink _) => true

/-- One iteration of the `for file_name in file_list` loop of
`populate_with_symlinks` (`animal_helpers.py` lines 103-116): resolve the
source to an absolute path; if it exists, remove any destination entry with
its base name (`os.path.exists(...) or os.path.islink(...)` is true exactly
when some entry is present), create the symlink, and bump `links_created`;
otherwise do nothing. -/
def sync_step (cwd : String) (acc : World × Nat) (file_name : String) : World × Nat :=
  let w := acc.1
  let links_created := acc.2
  let target_file := os_path_abspath cwd file_name
  let dest_name := os_path_basename target_file
  if w.src_exists target_file then
    let w1 :=
      if dest_path_exists w dest_name || dest_path_islink w dest_name then
        { w with dest := fun n => if n = dest_name then none else w.dest n }
      else w
    ({ w1 with
        dest := fun n =>
          if n = dest_name then some (Entry.symlink target_file) else w1.dest n },
     links_created + 1)
  else
    (w, links_created)

/-- `if not os.path.exists(folder_path): os.makedirs(folder_path)`
(`animal_helpers.py` lines 100-101). -/
def ensure_dest_dir (w : World) : World :=
  if w.dest_dir_exists then w else { w with dest_dir_exists := true }

/-- The observable outcome of one `populate_with_symlinks` call: the final
file-system state, the Python return value, and the console output. -/
structure SyncResult where
  world : World
  retval : Option Nat
  printed : List String

/-- `populate_with_symlinks(file_list, folder_path)` (`animal_helpers.py`
lines 93-118).  The folder path is made absolute and the directory created if
missing; destination entries live inside that single directory and are keyed
by base name.  The function body ends with the `print` — there is no `return`
statement, so the Python return value is `None`. -/
def populate_with_symlinks (file_list : List String) (folder_path : String)
    (cwd : String) (w : World) : SyncResult :=
  let _folder_path_abs := os_path_abspath cwd folder_path
  let w0 := ensure_dest_dir w
  let r := file_list.foldl (sync_step cwd) (w0, 0)
  { world := r.1,
    retval := none,
    printed := ["Total symbolic links created: " ++ toString r.2] }

lemma ensure_dest_dir_src (w : World) :
    (ensure_dest_dir w).src_exists = w.src_exists := by
  unfold ensure_dest_dir
  split <;> rfl

lemma ensure_dest_dir_dest (w : World) :
    (ensure_dest_dir w).dest = w.dest := by
  unfold ensure_dest_dir
  split <;> rfl

lemma populate_eq (file_list : List String) (folder_path cwd : String) (w : World) :
    populate_with_symlinks file_list folder_path cwd w =
      { world := (file_list.foldl (sync_step cwd) (ensure_dest_dir w, 0)).1,
        retval := none,
        printed := ["Total symbolic links created: " ++
          toString (file_list.foldl (sync_step cwd) (ensure_dest_dir w, 0)).2] } := rfl

lemma sync_step_src (cwd : String) (acc : World × Nat) (f : String) :
    ((sync_step cwd acc f).1).src_exists = acc.1.src_exists := by
  by_cases hsrc : acc.1.src_exists (os_path_abspath cwd f) = true
  · by_cases hrem : (dest_path_exists acc.1 (os_path_basename (os_path_abspath cwd f)) ||
        dest_path_islink acc.1 (os_path_basename (os_path_abspath cwd f))) = true <;>
      simp [sync_step, hsrc, hrem]
  · simp [sync_step, hsrc]

lemma sync_step_count (cwd : String) (acc : World × Nat) (f : String) :
    (sync_step cwd acc f).2 =
      acc.2 + (if acc.1.src_exists (os_path_abspath cwd f) = true then 1 else 0) := by
  by_cases hsrc : acc.1.src_exists (os_path_abspath cwd f) = true
  · by_cases hrem : (dest_path_exists acc.1 (os_path_basename (os_path_abspath cwd f)) ||
        dest_path_islink acc.1 (os_path_basename (os_path_abspath cwd f))) = true <;>
      simp [sync_step, hsrc, hrem]
  · simp [sync_step, hsrc]

lemma sync_step_dest (cwd : String) (acc : World × Nat) (f n : String) :
    ((sync_step cwd acc f).1).dest n =
      (if acc.1.src_exists (os_path_abspath cwd f) = true ∧
          os_path_basename (os_path_abspath cwd f) = n then
        some (Entry.symlink (os_path_abspath cwd f))
      else acc.1.dest n) := by
  by_cases hsrc : acc.1.src_exists (os_path_abspath cwd f) = true
  · by_cases hn : os_path_basename (os_path_abspath cwd f) = n
    · simp [sync_step, hsrc, hn]
    · have hn' : ¬ n = os_path_basename (os_path_abspath cwd f) :=
        fun hc => hn hc.symm
      by_cases hrem : (dest_path_exists acc.1 (os_path_basename (os_path_abspath cwd f)) ||
          dest_path_islink acc.1 (os_path_basename (os_path_abspath cwd f))) = true <;>
        simp [sync_step, hsrc, hn, hn', hrem]
  · simp [sync_step, hsrc]

lemma sync_fold_src (cwd : String) :
    ∀ (l : List String) (acc : World × Nat),
      ((l.foldl (sync_step cwd) acc).1).src_exists = acc.1.src_exists := by
  intro l
  induction l with
  | nil => intro acc; rfl
  | cons f rest ih =>
      intro acc
      rw [List.foldl_cons, ih, sync_step_src]

lemma sync_fold_count (cwd : String) :
    ∀ (l : List String) (acc : World × Nat),
      (l.foldl (sync_step cwd) acc).2 =
        acc.2 + l.countP (fun f => acc.1.src_exists (os_path_abspath cwd f)) := by
  intro l
  induction l with
  | nil => intro acc; simp
  | cons f rest ih =>
      intro acc
      rw [List.foldl_cons, ih]
      simp only [sync_step_src, sync_step_count, List.countP_cons]
      by_cases hsrc : acc.1.src_exists (os_path_abspath cwd f) = true <;>
        simp [hsrc] <;> omega

lemma sync_fold_dest (cwd : String) (l : List String) :
    ∀ (acc : World × Nat) (n : String),
      ((l.foldl (sync_step cwd) acc).1).dest n =
        (match (l.filter (fun f => acc.1.src_exists (os_path_abspath cwd f) &&
            decide (os_path_basename (os_path_abspath cwd f) = n))).getLast? with
        | some g => some (Entry.symlink (os_path_abspath cwd g))
        | none => acc.1.dest n) := by
  induction l using List.reverseRecOn with
  | nil => intro acc n; simp
  | append_singleton l f ih =>
      intro acc n
      rw [List.foldl_append, List.foldl_cons, List.foldl_nil, sync_step_dest,
        sync_fold_src, List.filter_append]
      by_cases hsrc : acc.1.src_exists (os_path_abspath cwd f) = true
      · by_cases hn : os_path_basename (os_path_abspath cwd f) = n
        · rw [if_pos ⟨hsrc, hn⟩]
          have hpf : (l.filter (fun f => acc.1.src_exists (os_path_abspath cwd f) &&
              decide (os_path_basename (os_path_abspath cwd f) = n))) ++
              ([f].filter (fun f => acc.1.src_exists (os_path_abspath cwd f) &&
                decide (os_path_basename (os_path_abspath cwd f) = n))) =
              (l.filter (fun f => acc.1.src_exists (os_path_abspath cwd f) &&
                decide (os_path_basename (os_path_abspath cwd f) = n))) ++ [f] := by
            simp [List.filter_cons, hsrc, hn]
          rw [hpf, List.getLast?_concat]
        · rw [if_neg (fun hc => hn hc.2)]
          have hpf : ([f].filter (fun f => acc.1.src_exists (os_path_abspath cwd f) &&
              decide (os_path_basename (os_path_abspath cwd f) = n))) = [] := by
            simp [List.filter_cons, hsrc, hn]
          rw [hpf, List.append_nil, ih]
      · rw [if_neg (fun hc => hsrc hc.1)]
        have hpf : ([f].filter (fun f => acc.1.src_exists (os_path_abspath cwd f) &&
            decide (os_path_basename (os_path_abspath cwd f) = n))) = [] := by
          simp [List.filter_cons, hsrc]
        rw [hpf, List.append_nil, ih]

/-- The destination entry a `populate_with_symlinks` call leaves under the
name `n`: a symlink to the last file-list entry with an existing source whose
base name is `n`, or the entry the destination already had when there is no
such file-list entry. -/
lemma populate_dest_char (file_list : List String) (folder_path cwd n : String)
    (w : World) :
    (populate_with_symlinks file_list folder_path cwd w).world.dest n =
      (match (file_list.filter (fun f => w.src_exists (os_path_abspath cwd f) &&
          decide (os_path_basename (os_path_abspath cwd f) = n))).getLast? with
      | some g => some (Entry.symlink (os_path_abspath cwd g))
      | none => w.dest n) := by
  rw [populate_eq]
  have h := sync_fold_dest cwd file_list (ensure_dest_dir w, 0) n
  simp only [ensure_dest_dir_src, ensure_dest_dir_dest] at h
  exact h

/-- C5 counterexample world: one existing source file, empty destination. -/
def worldC5 : World :=
  { src_exists := fun p => decide (p = "/srcdir/a.jpg"),
    dest := fun _ => none,
    dest_dir_exists := true }

/-- C5 counterexample: syncing one existing source file creates one symbolic
reference, but the call's return value is `None` — the total count `1` is
only printed to the console, never returned. -/
theorem populate_retval_none_cex :
    (populate_with_symlinks ["/srcdir/a.jpg"] "/dest" "/" worldC5).retval = none ∧
    (populate_with_symlinks ["/srcdir/a.jpg"] "/dest" "/" worldC5).printed =
      ["Total symbolic links created: 1"] :=
  ⟨rfl, by decide⟩

/-- C5 amended: `populate_with_symlinks` counts the symbolic references it
creates — one per file-list entry whose resolved source path exists — and
prints that total to the console, but the function has no `return` statement:
it returns `None`, not the count. -/
theorem populate_prints_count_returns_none (file_list : List String)
    (folder_path cwd : String) (w : World) :
    (populate_with_symlinks file_list folder_path cwd w).retval = none ∧
    (populate_with_symlinks file_list folder_path cwd w).printed =
      ["Total symbolic links created: " ++
        toString (file_list.countP
          (fun f => w.src_exists (os_path_abspath cwd f)))] := by
  refine ⟨rfl, ?_⟩
  rw [populate_eq]
  rw [sync_fold_count]
  simp only [ensure_dest_dir_src, Nat.zero_add]

/-- C8: if some file-list entry has an existing source whose base name is
`n`, then whatever entry (regular file, valid link or broken link) the
destination held under `n` before the sync, afterwards `n` holds a symbolic
reference to the absolute path of such a source — the prior entry is
replaced, never kept. -/
theorem populate_collision_replaced (file_list : List String)
    (folder_path cwd n : String) (w : World) (e : Entry)
    (hold : w.dest n = some e) (f : String) (hf : f ∈ file_list)
    (hsrc : w.src_exists (os_path_abspath cwd f) = true)
    (hbn : os_path_basename (os_path_abspath cwd f) = n) :
    ∃ g ∈ file_list, w.src_exists (os_path_abspath cwd g) = true ∧
      os_path_basename (os_path_abspath cwd g) = n ∧
      (populate_with_symlinks file_list folder_path cwd w).world.dest n =
        some (Entry.symlink (os_path_abspath cwd g)) := by
  have hmem : f ∈ file_list.filter (fun f => w.src_exists (os_path_abspath cwd f) &&
      decide (os_path_basename (os_path_abspath cwd f) = n)) :=
    List.mem_filter.mpr ⟨hf, by simp [hsrc, hbn]⟩
  have hne : file_list.filter (fun f => w.src_exists (os_path_abspath cwd f) &&
      decide (os_path_basename (os_path_abspath cwd f) = n)) ≠ [] :=
    List.ne_nil_of_mem hmem
  cases hlast : (file_list.filter (fun f => w.src_exists (os_path_abspath cwd f) &&
      decide (os_path_basename (os_path_abspath cwd f) = n))).getLast? with
  | none => exact absurd (List.getLast?_eq_none_iff.mp hlast) hne
  | some g =>
      have hg := List.mem_of_getLast?_eq_some hlast
      have hg' := List.mem_filter.mp hg
      have hgp := hg'.2
      rw [Bool.and_eq_true, decide_eq_true_iff] at hgp
      refine ⟨g, hg'.1, hgp.1, hgp.2, ?_⟩
      rw [populate_dest_char, hlast]

/-- C8 witness world: the destination already holds a link `a.jpg` pointing
at `/old/a.jpg`; the source `/new/a.jpg` exists. -/
def worldC8 : World :=
  { src_exists := fun p => decide (p = "/new/a.jpg"),
    dest := fun nm => if nm = "a.jpg" then some (Entry.symlink "/old/a.jpg") else none,
    dest_dir_exists := true }

/-- Witness: C8 at the spec's stale-link example — after syncing
`["/new/a.jpg"]`, the entry `a.jpg` points at a file-list source. -/
theorem populate_collision_replaced_witness :
    worldC8.dest "a.jpg" = some (Entry.symlink "/old/a.jpg") ∧
    "/new/a.jpg" ∈ ["/new/a.jpg"] ∧
    worldC8.src_exists (os_path_abspath "/" "/new/a.jpg") = true ∧
    os_path_basename (os_path_abspath "/" "/new/a.jpg") = "a.jpg" ∧
    ∃ g ∈ ["/new/a.jpg"], worldC8.src_exists (os_path_abspath "/" g) = true ∧
      os_path_basename (os_path_abspath "/" g) = "a.jpg" ∧
      (populate_with_symlinks ["/new/a.jpg"] "/dest" "/" worldC8).world.dest "a.jpg" =
        some (Entry.symlink (os_path_abspath "/" g)) :=
  ⟨by decide, by decide, by decide, by decide,
    populate_collision_replaced ["/new/a.jpg"] "/dest" "/" "a.jpg" worldC8
      (Entry.symlink "/old/a.jpg") (by decide) "/new/a.jpg" (by decide)
      (by decide) (by decide)⟩

/-- C9: a file-list entry whose resolved source path does not exist is a
complete no-op: the sync over a list containing it returns exactly the same
result (same final directory state, same printed count, same return value,
and no error) as the sync over the list with that entry removed. -/
theorem populate_missing_source_skip (pre post : List String) (f : String)
    (folder_path cwd : String) (w : World)
    (h : w.src_exists (os_path_abspath cwd f) = false) :
    populate_with_symlinks (pre ++ f :: post) folder_path cwd w =
      populate_with_symlinks (pre ++ post) folder_path cwd w := by
  have hstep : ∀ acc : World × Nat, acc.1.src_exists = w.src_exists →
      sync_step cwd acc f = acc := by
    intro acc hacc
    have hfalse : acc.1.src_exists (os_path_abspath cwd f) = false := by
      rw [hacc, h]
    simp [sync_step, hfalse]
  have key : (pre ++ f :: post).foldl (sync_step cwd) (ensure_dest_dir w, 0) =
      (pre ++ post).foldl (sync_step cwd) (ensure_dest_dir w, 0) := by
    rw [List.foldl_append, List.foldl_append, List.foldl_cons,
      hstep (pre.foldl (sync_step cwd) (ensure_dest_dir w, 0))
        (by rw [sync_fold_src, ensure_dest_dir_src])]
  rw [populate_eq, populate_eq, key]

/-- C9 witness world: `/new/b.jpg` exists, `/gone/c.jpg` does not. -/
def worldC9 : World :=
  { src_exists := fun p => decide (p = "/new/b.jpg"),
    dest := fun _ => none,
    dest_dir_exists := false }

/-- Witness: C9 with a two-entry file list whose second source is missing. -/
theorem populate_missing_source_skip_witness :
    worldC9.src_exists (os_path_abspath "/" "/gone/c.jpg") = false ∧
    populate_with_symlinks ["/new/b.jpg", "/gone/c.jpg"] "/dest" "/" worldC9 =
      populate_with_symlinks ["/new/b.jpg"] "/dest" "/" worldC9 :=
  ⟨by decide,
    populate_missing_source_skip ["/new/b.jpg"] [] "/gone/c.jpg" "/dest" "/"
      worldC9 (by decide)⟩

/-- C10 (frame): `populate_with_symlinks` touches a destination entry only if
its name is the base name of some file-list entry whose resolved source
exists; any destination entry under any other name is left exactly as it
was. -/
theorem populate_untouched_names (file_list : List String)
    (folder_path cwd n : String) (w : World)
    (h : ∀ f ∈ file_list, w.src_exists (os_path_abspath cwd f) = true →
        os_path_basename (os_path_abspath cwd f) ≠ n) :
    (populate_with_symlinks file_list folder_path cwd w).world.dest n = w.dest n := by
  rw [populate_dest_char]
  have hfil : file_list.filter (fun f => w.src_exists (os_path_abspath cwd f) &&
      decide (os_path_basename (os_path_abspath cwd f) = n)) = [] := by
    rw [List.filter_eq_nil_iff]
    intro f hf
    intro hp
    rw [Bool.and_eq_true, decide_eq_true_iff] at hp
    exact h f hf hp.1 hp.2
  rw [hfil]
  rfl

/-- C10 witness world: the destination holds a regular file `keep.txt`;
the file list names one existing source `a.jpg` and one missing source whose
base name would be `keep.txt`. -/
def worldC10 : World :=
  { src_exists := fun p => decide (p = "/new/a.jpg"),
    dest := fun nm => if nm = "keep.txt" then some Entry.file else none,
    dest_dir_exists := true }

/-- Witness: C10 — the unrelated destination entry `keep.txt` is unchanged,
even though a missing source named `keep.txt` appears in the file list. -/
theorem populate_untouched_names_witness :
    (∀ f ∈ ["/new/a.jpg", "/gone/keep.txt"],
      worldC10.src_exists (os_path_abspath "/" f) = true →
        os_path_basename (os_path_abspath "/" f) ≠ "keep.txt") ∧
    (populate_with_symlinks ["/new/a.jpg", "/gone/keep.txt"] "/dest" "/"
        worldC10).world.dest "keep.txt" = worldC10.dest "keep.txt" :=
  ⟨by decide,
    populate_untouched_names ["/new/a.jpg", "/gone/keep.txt"] "/dest" "/"
      "keep.txt" worldC10 (by decide)⟩

/-- A node of the file-system tree `os.walk` traverses: a regular file, or a
directory with a readability flag and named children. -/
inductive FSNode where
  | file
  | dir (readable : Bool) (entries : List (String × FSNode))

/-- Whether a directory entry is a regular file (used to split `os.scandir`
results into the `dirs` and `files` lists of an `os.walk` triple). -/
def FSNode.isFile : FSNode → Bool
  | FSNode.file => true
  | FSNode.dir _ _ => false

/-- The `files` component of the `os.walk` triple for a directory's entries. -/
def walk_files (entries : List (String × FSNode)) : List String :=
  (entries.filter (fun e => e.2.isFile)).map (fun e => e.1)

/-- The `dirs` component of the `os.walk` triple for a directory's entries. -/
def walk_dirs (entries : List (String × FSNode)) : List String :=
  (entries.filter (fun e => ! e.2.isFile)).map (fun e => e.1)

mutual

/-- `os.walk(path)` over the node at `path`, with the default
`onerror=None`: the `OSError` that `scandir` raises on a missing path, a
non-directory, or an unreadable directory is silently ignored, so such a
node yields no triples at all.  A readable directory yields its own
`(path, dirs, files)` triple and then, top-down, the walks of its
subdirectories. -/
def os_walk (path : String) : FSNode → List (String × List String × List String)
  | FSNode.file => []
  | FSNode.dir false _ => []
  | FSNode.dir true entries =>
      (path, walk_dirs entries, walk_files entries) :: os_walk_list path entries

/-- The concatenated walks of a directory's subdirectory entries (file
entries contribute nothing; `os.walk` recurses only into `dirs`). -/
def os_walk_list (path : String) : List (String × FSNode) →
    List (String × List String × List String)
  | [] => []
  | (nm, node) :: rest =>
      (match node with
       | FSNode.file => []
       | FSNode.dir r es => os_walk (os_path_join path nm) (FSNode.dir r es)) ++
        os_walk_list path rest

end

/-- `list_files_recursively(folder_path)` (`animal_helpers.py` lines 7-22):
`os.walk` over the node at `folder_path` (`none` when the path does not
exist), collecting `os.path.abspath(os.path.join(root, file))` for every
`file` of every yielded triple, in traversal order. -/
def list_files_recursively (cwd folder_path : String) (fs : Option FSNode) :
    List String :=
  match fs with
  | none => []
  | some node =>
      ((os_walk folder_path node).map (fun t =>
        t.2.2.map (fun file => os_path_abspath cwd (os_path_join t.1 file)))).flatten

/-- `find_files_recursively(target_path)` (`animal_helpers.py` lines 84-90):
same traversal, collecting `pathlib.PurePath(path, name)` (a joined path,
not made absolute) for every file. -/
def find_files_recursively (target_path : String) (fs : Option FSNode) :
    List String :=
  match fs with
  | none => []
  | some node =>
      ((os_walk target_path node).map (fun t =>
        t.2.2.map (fun nm => os_path_join t.1 nm))).flatten

lemma os_walk_file (p : String) : os_walk p FSNode.file = [] := by
  rw [os_walk.eq_def]

lemma os_walk_dir_false (p : String) (entries : List (String × FSNode)) :
    os_walk p (FSNode.dir false entries) = [] := by
  rw [os_walk.eq_def]

lemma os_walk_dir_true (p : String) (entries : List (String × FSNode)) :
    os_walk p (FSNode.dir true entries) =
      (p, walk_dirs entries, walk_files entries) :: os_walk_list p entries := by
  rw [os_walk.eq_def]

lemma os_walk_list_nil (p : String) : os_walk_list p [] = [] := by
  rw [os_walk_list.eq_def]

lemma os_walk_list_cons (p nm : String) (node : FSNode)
    (rest : List (String × FSNode)) :
    os_walk_list p ((nm, node) :: rest) =
      (match node with
       | FSNode.file => []
       | FSNode.dir r es => os_walk (os_path_join p nm) (FSNode.dir r es)) ++
        os_walk_list p rest := by
  rw [os_walk_list.eq_def]

lemma os_walk_list_append (p : String) (l₁ l₂ : List (String × FSNode)) :
    os_walk_list p (l₁ ++ l₂) = os_walk_list p l₁ ++ os_walk_list p l₂ := by
  induction l₁ with
  | nil => simp [os_walk_list_nil]
  | cons e rest ih =>
      obtain ⟨nm, node⟩ := e
      rw [List.cons_append, os_walk_list_cons, os_walk_list_cons, ih,
        List.append_assoc]

lemma walk_files_skip_dir (pre post : List (String × FSNode)) (nm : String)
    (r : Bool) (sub : List (String × FSNode)) :
    walk_files (pre ++ (nm, FSNode.dir r sub) :: post) = walk_files (pre ++ post) := by
  unfold walk_files
  rw [List.filter_append, List.filter_append, List.filter_cons]
  simp [FSNode.isFile]

lemma os_walk_unreadable_subdir (p : String) (pre post : List (String × FSNode))
    (nm : String) (sub : List (String × FSNode)) :
    os_walk_list p (pre ++ (nm, FSNode.dir false sub) :: post) =
      os_walk_list p (pre ++ post) := by
  rw [os_walk_list_append, os_walk_list_append, os_walk_list_cons]
  simp [os_walk_dir_false]

/-- C7 counterexample: for a root that does not exist, both scanners return
an empty list — `os.walk` with the default `onerror=None` swallows the
`FileNotFoundError`, so no `AccessError` (nor any error) is raised. -/
theorem scanner_missing_root_no_error :
    list_files_recursively "/" "/missing" none = [] ∧
    find_files_recursively "/missing" none = [] :=
  ⟨rfl, rfl⟩

/-- C7 amended: when the root does not exist or is an unreadable directory,
`list_files_recursively` and `find_files_recursively` return an empty list
instead of failing with an `AccessError`; an individual unreadable
subdirectory is skipped silently — no warning is emitted — while the rest of
the scan completes unaffected. -/
theorem scanner_access_behavior (cwd p nm : String)
    (entries pre post sub : List (String × FSNode)) :
    list_files_recursively cwd p none = [] ∧
    find_files_recursively p none = [] ∧
    list_files_recursively cwd p (some (FSNode.dir false entries)) = [] ∧
    find_files_recursively p (some (FSNode.dir false entries)) = [] ∧
    list_files_recursively cwd p
        (some (FSNode.dir true (pre ++ (nm, FSNode.dir false sub) :: post))) =
      list_files_recursively cwd p (some (FSNode.dir true (pre ++ post))) ∧
    find_files_recursively p
        (some (FSNode.dir true (pre ++ (nm, FSNode.dir false sub) :: post))) =
      find_files_recursively p (some (FSNode.dir true (pre ++ post))) := by
  refine ⟨rfl, rfl, ?_, ?_, ?_, ?_⟩
  · simp [list_files_recursively, os_walk_dir_false]
  · simp [find_files_recursively, os_walk_dir_false]
  · simp only [list_files_recursively]
    rw [os_walk_dir_true, os_walk_dir_true, os_walk_unreadable_subdir,
      walk_files_skip_dir pre post nm false sub]
    simp
  · simp only [find_files_recursively]
    rw [os_walk_dir_true, os_walk_dir_true, os_walk_unreadable_subdir,
      walk_files_skip_dir pre post nm false sub]
    simp

end AnimalHelpers
